import Mathlib

set_option maxHeartbeats 1000000

/-!
Verification development for the intent-dispatch engine of the Fritbot
repository (src/src/chat/intent.js).  Each definition below is a shallow
embedding of the corresponding JavaScript in that file; theorems settle the
spec claims about it.

Modelling conventions: JavaScript strings are Lean `String`s (the messages of
interest are ASCII, so UTF-16 lengths and character counts agree); a RegExp is
abstracted as a function returning an optional match (matched substring plus
its index), as the code only uses `exec`, `match`, `.index` and `[0].length`;
timestamps are integers in milliseconds; handler side effects are recorded as
an event trace, and a handler that throws is a handler returning
`Except.error`.
-/

/-- Result of RegExp.exec as the code consumes it: the matched substring
(element 0 of the match array) and its index in the input. -/
structure RegexMatch where
  index : Nat
  matched : String
deriving DecidableEq, Repr

/-- A trigger abstracts a RegExp: given the input text, optionally a match.
This models the only operation the code performs on a trigger (`exec`). -/
abbrev Trigger := String → Option RegexMatch

/-- A registered command (intent.js lines 21-27): trigger, core flag, and the
bound handler.  The handler receives the split argument list; a JavaScript
handler that throws is modelled as one returning `Except.error`. -/
structure Command where
  trigger : Trigger
  core : Bool
  func : List String → Except Unit Unit

/-- A registered listener (intent.js lines 30-35): trigger and bound handler.
The handler receives the message text and returns a truthiness value; a
throwing handler is modelled as `Except.error`. -/
structure Listener where
  trigger : Trigger
  func : String → Except Unit Bool

/-- The IntentService state (intent.js lines 7-18): registered commands and
listeners, the squelch table, and the configured address-prompt names
(`bot.config.responds_to`), from which the prompt patterns are built. -/
structure IntentService where
  commands : List Command
  listeners : List Listener
  squelch_timers : List (String × Int)
  prompts : List String

/-- A route: the conversation a message arrived on.  `room = none` models a
null room (direct message). -/
structure Route where
  room : Option String
deriving DecidableEq, Repr

/-- The single-quote character (code point 39). -/
def squote : Char := Char.ofNat 39

/-- The double-quote character (code point 34). -/
def dquote : Char := Char.ofNat 34

/-- message.trim() (intent.js line 41): strip whitespace from both ends. -/
def jsTrim (s : String) : String :=
  String.mk (((s.data.dropWhile Char.isWhitespace).reverse.dropWhile
    Char.isWhitespace).reverse)

/-- The two replace calls of intent.js lines 42-43: typographic single quotes
(U+2018, U+2019) become apostrophes, typographic double quotes (U+201C,
U+201D) become double quotes. -/
def normalizeQuotes (s : String) : String :=
  String.mk (s.data.map fun c =>
    if c = Char.ofNat 0x2018 || c = Char.ofNat 0x2019 then squote
    else if c = Char.ofNat 0x201C || c = Char.ofNat 0x201D then dquote
    else c)

/-- Helper for `splitSpaces`, accumulating the current token reversed. -/
def splitSpacesAux : List Char → List Char → List String
  | [], acc => [String.mk acc.reverse]
  | c :: rest, acc =>
    if c = ' ' then String.mk acc.reverse :: splitSpacesAux rest []
    else splitSpacesAux rest (c :: acc)

/-- message.split(' ') (intent.js line 44): split on every single space, so
the empty string yields one empty token and adjacent spaces yield empty
tokens, exactly as in JavaScript. -/
def splitSpaces (s : String) : List String := splitSpacesAux s.data []

/-- token.slice(1): drop the first character. -/
def strTail (s : String) : String := String.mk s.data.tail

/-- token.slice(0, -1): drop the last character. -/
def strDropLast (s : String) : String := String.mk s.data.dropLast

/-- message.slice(n): drop the first n characters. -/
def strDrop (s : String) (n : Nat) : String := String.mk (s.data.drop n)

/-- The mutable state of the forEach walk in splitArgs (intent.js lines
46-77): collected args, the active quote character (null when outside a
quoted span), and the accumulated quoted span. -/
structure SplitState where
  args : List String
  quote : Option Char
  quotedstring : List String

/-- One iteration of the forEach in splitArgs (intent.js lines 49-77).
token[0] and token[token.length - 1] on the empty token are undefined in
JavaScript, hence the `Option Char` head/last comparisons. -/
def splitStep (st : SplitState) (token : String) : SplitState :=
  match st.quote with
  | none =>
    match token.data.head? with
    | some c =>
      if c = dquote || c = squote then
        if token.data.getLast? = some c then
          { st with args := st.args ++ [strDropLast (strTail token)] }
        else
          { st with quote := some c, quotedstring := [strTail token] }
      else { st with args := st.args ++ [token] }
    | none => { st with args := st.args ++ [token] }
  | some q =>
    if token.data.getLast? = some q then
      { args := st.args ++ [String.intercalate " " (st.quotedstring ++ [strDropLast token])],
        quote := none, quotedstring := [] }
    else { st with quotedstring := st.quotedstring ++ [token] }

/-- IntentService.prototype.splitArgs (intent.js lines 38-85): trim,
normalize typographic quotes, split on spaces, then walk the tokens tracking
quoted spans; an unterminated quoted span is appended as a final argument. -/
def splitArgs (message : String) : List String :=
  let st := (splitSpaces (normalizeQuotes (jsTrim message))).foldl splitStep
    ⟨[], none, []⟩
  if st.quotedstring.isEmpty then st.args
  else st.args ++ [String.intercalate " " st.quotedstring]

/-- JavaScript object-key coercion for `squelch_timers[room]`: a null room is
coerced to the property key "null". -/
def roomKey : Option String → String
  | none => "null"
  | some s => s

/-- JavaScript truthiness of the room value in `if (room && ...)` (intent.js
line 102): null and the empty string are falsy. -/
def roomTruthy : Option String → Bool
  | none => false
  | some s => s != ""

/-- Property lookup in the squelch table; absent keys are undefined (falsy).
The stored values are moment objects, which are always truthy. -/
def lookupTimer : List (String × Int) → String → Option Int
  | [], _ => none
  | (k, t) :: rest, key => if k = key then some t else lookupTimer rest key

/-- Property assignment in the squelch table: overwrite an existing entry or
add a new one. -/
def setTimer : List (String × Int) → String → Int → List (String × Int)
  | [], key, t => [(key, t)]
  | (k, t0) :: rest, key, t =>
    if k = key then (key, t) :: rest else (k, t0) :: setTimer rest key t

/-- IntentService.prototype.squelch (intent.js lines 87-99): an omitted
second argument defaults to true; the stored expiry is now plus ten minutes
(600000 ms) when squelching, or now itself when unsquelching. -/
def IntentService.squelch (svc : IntentService) (now : Int) (room : Option String)
    (squelchedFlag : Option Bool) : IntentService :=
  let sq := squelchedFlag.getD true
  let time := if sq then now + 600000 else now
  { svc with squelch_timers := setTimer svc.squelch_timers (roomKey room) time }

/-- IntentService.prototype.squelched (intent.js lines 101-108): true iff the
room is truthy, an entry exists, and `moment().diff(entry) < 0`, i.e. the
stored expiry is strictly in the future. -/
def IntentService.squelched (svc : IntentService) (now : Int)
    (room : Option String) : Bool :=
  if roomTruthy room then
    match lookupTimer svc.squelch_timers (roomKey room) with
    | some t => decide (now - t < 0)
    | none => false
  else false

/-- The address-prompt pattern built in the constructor (intent.js lines
12-14): new RegExp built from an optional at-sign, the configured name, an
optional colon, and one space.  Greedy optional groups prefer the at-sign and
the colon when present, so the four prefixes are tried longest-greediest
first; the result is the matched prefix (match[0]). -/
def promptMatch (name message : String) : Option String :=
  let attempt := fun (p : String) =>
    if p.data.isPrefixOf message.data then some p else none
  (attempt ("@" ++ name ++ ": ")).orElse fun _ =>
    (attempt ("@" ++ name ++ " ")).orElse fun _ =>
      (attempt (name ++ ": ")).orElse fun _ => attempt (name ++ " ")

/-- The prompt loop of handleMessage (intent.js lines 118-125): try each
prompt in order; on the first match return the message with the matched
prefix removed (message.slice(matched[0].length)). -/
def stripPrompt : List String → String → Option String
  | [], _ => none
  | name :: rest, message =>
    match promptMatch name message with
    | some m => some (strDrop message m.length)
    | none => stripPrompt rest message

/-- Reply channel: route.send versus route.direct().send. -/
inductive Channel
  | normal
  | forcedDirect
deriving DecidableEq, Repr

/-- Observable actions of one dispatch pass: a command handler called with
its argument list, a listener handler called with the message text (result
`some b` for a normal return, `none` when the handler threw), and a reply
sent on a channel. -/
inductive Event
  | commandInvoked (i : Nat) (args : List String)
  | listenerInvoked (i : Nat) (msg : String) (result : Option Bool)
  | reply (ch : Channel) (key : String)
deriving DecidableEq, Repr

/-- Errors that can escape the inner handleMessage into the domain handler:
`badFunc` is the TypeError from calling `matched.func` when no candidate was
selected (matched is still the initial [''] and func is undefined), and
`handlerError` is an error thrown by command or listener handler code. -/
inductive JsError
  | badFunc
  | handlerError
deriving DecidableEq, Repr

/-- How the listener loop of intent.js lines 184-188 ended: a handler
returned truthy (the function returns), the loop ran off the end, or a
handler threw. -/
inductive ListenOutcome
  | handled
  | fellThrough
  | errored
deriving DecidableEq, Repr

/-- The command-matching loop of intent.js lines 129-142, with the running
index made explicit.  A command contributes a candidate iff its trigger
matches at index 0 and it is core or the conversation is not squelched
(`this.squelched(route.room)` is loop-invariant, passed here as `sq`). -/
def commandCandidatesFrom (sq : Bool) (message : String) :
    Nat → List Command → List (Nat × RegexMatch × Command)
  | _, [] => []
  | i, c :: rest =>
    let tail := commandCandidatesFrom sq message (i + 1) rest
    match c.trigger message with
    | some m =>
      if m.index = 0 then
        if c.core || !sq then (i, m, c) :: tail else tail
      else tail
    | none => tail

/-- All command candidates for a message (intent.js lines 129-142). -/
def commandCandidates (svc : IntentService) (now : Int) (room : Option String)
    (message : String) : List (Nat × RegexMatch × Command) :=
  commandCandidatesFrom (svc.squelched now room) message 0 svc.commands

/-- Matched-substring length of a command candidate (matches[i][0].length). -/
def candLen (x : Nat × RegexMatch × Command) : Nat := x.2.1.matched.length

/-- One step of the selection loop of intent.js lines 149-153: the candidate
replaces the running best exactly when its matched substring is strictly
longer.  `none` models the initial `matched = ['']` sentinel of length 0. -/
def pickStep (best : Option (Nat × RegexMatch × Command))
    (m : Nat × RegexMatch × Command) : Option (Nat × RegexMatch × Command) :=
  match best with
  | none => if 0 < candLen m then some m else none
  | some b => if candLen b < candLen m then some m else some b

/-- The selection loop of intent.js lines 144-153 over the candidate list. -/
def pickLongestAux (best : Option (Nat × RegexMatch × Command)) :
    List (Nat × RegexMatch × Command) → Option (Nat × RegexMatch × Command)
  | [] => best
  | m :: rest => pickLongestAux (pickStep best m) rest

/-- Pick the candidate with the longest matched substring (intent.js lines
144-153).  `none` means the sentinel was never displaced: every candidate's
match was empty, and the subsequent `matched.func(...)` call is a TypeError. -/
def pickLongest (ms : List (Nat × RegexMatch × Command)) :
    Option (Nat × RegexMatch × Command) :=
  pickLongestAux none ms

/-- The listener-matching loop of intent.js lines 166-174: every listener
whose trigger matches anywhere is a candidate, in registration order. -/
def listenerCandidatesFrom (message : String) :
    Nat → List Listener → List (Nat × RegexMatch × Listener)
  | _, [] => []
  | i, l :: rest =>
    match l.trigger message with
    | some m => (i, m, l) :: listenerCandidatesFrom message (i + 1) rest
    | none => listenerCandidatesFrom message (i + 1) rest

/-- All listener candidates for a message (intent.js lines 166-174). -/
def listenerCandidates (svc : IntentService) (message : String) :
    List (Nat × RegexMatch × Listener) :=
  listenerCandidatesFrom message 0 svc.listeners

/-- Model of `matches.sort(function (a, b) { return a[0].length > b[0].length })`
(intent.js lines 180-182).  The comparator returns a Boolean; Array sort
coerces it to 1 or 0 and never receives a negative value, so no element ever
compares as less than another and the Node runtime's sort moves nothing: the
observed order is the original registration order (spec section 4.4 records
this observed behavior).  Modelled as the identity. -/
def jsSort (ms : List (Nat × RegexMatch × Listener)) :
    List (Nat × RegexMatch × Listener) := ms

/-- The listener-execution loop of intent.js lines 184-188: call handlers in
candidate order; a truthy return ends the whole dispatch, a falsy return
moves to the next candidate, a throw escapes to the domain. -/
def runListeners : List (Nat × RegexMatch × Listener) → String →
    List Event × ListenOutcome
  | [], _ => ([], ListenOutcome.fellThrough)
  | (i, _, l) :: rest, message =>
    match l.func message with
    | Except.error _ => ([Event.listenerInvoked i message none], ListenOutcome.errored)
    | Except.ok true =>
      ([Event.listenerInvoked i message (some true)], ListenOutcome.handled)
    | Except.ok false =>
      let r := runListeners rest message
      (Event.listenerInvoked i message (some false) :: r.1, r.2)

/-- Outcome of a command-handler call: a throw escapes to the domain. -/
def cmdErr : Except Unit Unit → Option JsError
  | Except.error _ => some JsError.handlerError
  | Except.ok _ => none

/-- The command block of intent.js lines 128-160: `none` when no candidate
matched (fall through to listeners/fallback); otherwise the events and error
of selecting and calling the best candidate.  When the selection loop never
displaced the sentinel, `matched.func` is undefined and the call raises
(`badFunc`). -/
def commandStage (svc : IntentService) (now : Int) (room : Option String)
    (message : String) : Option (List Event × Option JsError) :=
  let cands := commandCandidates svc now room message
  if cands.isEmpty then none
  else some (match pickLongest cands with
    | none => ([], some JsError.badFunc)
    | some sel =>
      let args := splitArgs (strDrop message (candLen sel))
      ([Event.commandInvoked sel.1 args], cmdErr (sel.2.2.func args)))

/-- The listener block of intent.js lines 163-190: skipped entirely when the
conversation is squelched. -/
def listenerStage (svc : IntentService) (now : Int) (room : Option String)
    (message : String) : List Event × ListenOutcome :=
  if svc.squelched now room then ([], ListenOutcome.fellThrough)
  else runListeners (jsSort (listenerCandidates svc message)) message

/-- The fallback block of intent.js lines 192-199: only for messages flagged
as commands; under squelch the silenced reply goes out on the forced-direct
channel, otherwise the not-understood reply on the normal route. -/
def fallbackStage (svc : IntentService) (now : Int) (room : Option String)
    (isCommand : Bool) : List Event :=
  if isCommand then
    if svc.squelched now room then
      [Event.reply Channel.forcedDirect "?command_but_silenced"]
    else [Event.reply Channel.normal "?command_not_found"]
  else []

/-- The value of the local variable `isCommand` after the prompt loop
(intent.js lines 113-125): true for a null room (direct message) or when
some prompt matched. -/
def isCommandFlag (svc : IntentService) (route : Route) (message0 : String) : Bool :=
  route.room.isNone || (stripPrompt svc.prompts message0).isSome

/-- The value of the local variable `message` after the prompt loop
(intent.js line 122): the stripped text when a prompt matched, otherwise the
original text.  Every later use of `message` — command matching, argument
splitting, listener matching and listener handler calls — reads this. -/
def strippedMsg (svc : IntentService) (message0 : String) : String :=
  (stripPrompt svc.prompts message0).getD message0

/-- The tail of handleMessage after the command block fell through
(intent.js lines 163-199): the listener block, then the fallback block when
the loop did not return early. -/
def listenerPath (svc : IntentService) (now : Int) (room : Option String)
    (message : String) (isCommand : Bool) : List Event × Option JsError :=
  let ls := listenerStage svc now room message
  match ls.2 with
  | ListenOutcome.errored => (ls.1, some JsError.handlerError)
  | ListenOutcome.handled => (ls.1, none)
  | ListenOutcome.fellThrough =>
    (ls.1 ++ fallbackStage svc now room isCommand, none)

/-- The inner handleMessage function (intent.js lines 111-200): address
check (a null room means every direct message is a command; a matching
prompt reassigns `message` to the stripped text for everything that
follows), then the command, listener and fallback blocks.  Returns the event
trace together with the error, if any, escaping to the domain. -/
def handleMessageInner (svc : IntentService) (now : Int) (route : Route)
    (message0 : String) : List Event × Option JsError :=
  match (if isCommandFlag svc route message0 then
      commandStage svc now route.room (strippedMsg svc message0)
    else none) with
  | some r => r
  | none =>
    listenerPath svc now route.room (strippedMsg svc message0)
      (isCommandFlag svc route message0)

/-- IntentService.prototype.handleMessage (intent.js lines 203-216): run the
inner function inside a domain; an escaping error is logged and answered
with a single generic-error reply on the route. -/
def IntentService.handleMessage (svc : IntentService) (now : Int)
    (route : Route) (message : String) : List Event :=
  let r := handleMessageInner svc now route message
  match r.2 with
  | some _ => r.1 ++ [Event.reply Channel.normal "?generic_error"]
  | none => r.1

/-- Successive, independent dispatch passes: the transport delivers messages
one at a time and each pass runs inside its own fresh domain. -/
def processMessages (svc : IntentService) (now : Int) :
    List (Route × String) → List (List Event)
  | [] => []
  | (route, message) :: rest =>
    svc.handleMessage now route message :: processMessages svc now rest

/-- True for the two fallback replies of intent.js lines 192-199. -/
def isFallbackReply : Event → Bool
  | Event.reply _ key => key == "?command_but_silenced" || key == "?command_not_found"
  | _ => false

/-- True for the generic-error reply of the domain handler (line 210). -/
def isGenericReply : Event → Bool
  | Event.reply _ key => key == "?generic_error"
  | _ => false

/-- A trigger behaving like an anchored literal pattern: it matches exactly
when the literal is a prefix of the input, with the literal as match[0]. -/
def litTrigger (t : String) : Trigger := fun s =>
  if t.data.isPrefixOf s.data then some ⟨0, t⟩ else none

/-- A trigger matching the whole input at index 0 (a catch-all pattern). -/
def allTrigger : Trigger := fun s => some ⟨0, s⟩

/-- A trigger matching the empty string at index 0, as a pattern like x-star
does on any input that does not start with x. -/
def emptyTrigger : Trigger := fun _ => some ⟨0, ""⟩

/-- A command handler that returns normally. -/
def okCmdFunc : List String → Except Unit Unit := fun _ => Except.ok ()

/-- A command handler that throws. -/
def throwCmdFunc : List String → Except Unit Unit := fun _ => Except.error ()

/-- A listener handler that returns the given truthiness value. -/
def constListener (b : Bool) : String → Except Unit Bool := fun _ => Except.ok b

/-- A listener handler that throws. -/
def throwListener : String → Except Unit Bool := fun _ => Except.error ()

/-- A route in a shared room "r". -/
def roomRoute : Route := ⟨some "r"⟩

/-- A direct-message route (null room). -/
def dmRoute : Route := ⟨none⟩

/-- Service for the C1 counterexample: no commands, one catch-all listener
whose handler returns true, prompt name "bot". -/
def svcC1 : IntentService :=
  ⟨[], [⟨allTrigger, constListener true⟩], [], ["bot"]⟩

/-- Service for C2: a listener that only matches the original unstripped
text "bot: hi", followed by a catch-all listener; prompt name "bot". -/
def svcC2 : IntentService :=
  ⟨[], [⟨litTrigger "bot: hi", constListener true⟩,
    ⟨allTrigger, constListener true⟩], [], ["bot"]⟩

/-- Service for C3: two listeners registered shorter-match first (matched
lengths 2 and 5 on the message "abcde"), both returning false. -/
def svcC3 : IntentService :=
  ⟨[], [⟨litTrigger "ab", constListener false⟩,
    ⟨litTrigger "abcde", constListener false⟩], [], []⟩

/-- Service for the C4 witness: one command whose handler throws. -/
def svcC4 : IntentService :=
  ⟨[⟨litTrigger "boom", false, throwCmdFunc⟩], [], [], []⟩

/-- Service for the C5 counterexample: one core command whose trigger
matches the empty string at index 0 on any input. -/
def svcC5 : IntentService :=
  ⟨[⟨emptyTrigger, true, okCmdFunc⟩], [], [], []⟩

/-- Service for the C5 witness: two commands with matched substrings of
length 4 and 7 on the message "abcdefg go". -/
def svcC5w : IntentService :=
  ⟨[⟨litTrigger "abcd", false, okCmdFunc⟩,
    ⟨litTrigger "abcdefg", false, okCmdFunc⟩], [], [], []⟩

/-- A core command with trigger "go" for the C6 witness. -/
def cmdCore : Command := ⟨litTrigger "go", true, okCmdFunc⟩

/-- A non-core command with the identical trigger for the C6 witness. -/
def cmdNonCore : Command := ⟨litTrigger "go", false, okCmdFunc⟩

/-- Service for the C6 witness: a core and a non-core command with the same
trigger, room "r" squelched until time 1, prompt name "bot". -/
def svcC6w : IntentService := ⟨[cmdCore, cmdNonCore], [], [("r", 1)], ["bot"]⟩

/-- An empty service for the C7 theorems. -/
def svcEmpty : IntentService := ⟨[], [], [], []⟩

/-- Listener candidates for the C8 witness: false, true, false handlers. -/
def candsC8 : List (Nat × RegexMatch × Listener) :=
  [(0, ⟨0, "a"⟩, ⟨allTrigger, constListener false⟩),
    (1, ⟨0, "b"⟩, ⟨allTrigger, constListener true⟩),
    (2, ⟨0, "c"⟩, ⟨allTrigger, constListener false⟩)]

/-- The tail of `candsC8`. -/
def candsC8tail : List (Nat × RegexMatch × Listener) :=
  [(1, ⟨0, "b"⟩, ⟨allTrigger, constListener true⟩),
    (2, ⟨0, "c"⟩, ⟨allTrigger, constListener false⟩)]

/-- Service for the C9 counterexample: a single non-core command whose
trigger yields an empty match at index 0. -/
def svcC9 : IntentService :=
  ⟨[⟨emptyTrigger, false, okCmdFunc⟩], [], [], []⟩

/-- Length of the running best of the selection loop; the initial sentinel
`matched = ['']` has length 0. -/
def bestLen : Option (Nat × RegexMatch × Command) → Nat
  | none => 0
  | some b => candLen b

theorem bestLen_pickStep_left (best : Option (Nat × RegexMatch × Command))
    (m : Nat × RegexMatch × Command) : bestLen best ≤ bestLen (pickStep best m) := by
  cases best with
  | none => simp [bestLen]
  | some b =>
    simp only [pickStep]
    split <;> simp [bestLen] <;> omega

theorem bestLen_pickStep_right (best : Option (Nat × RegexMatch × Command))
    (m : Nat × RegexMatch × Command) : candLen m ≤ bestLen (pickStep best m) := by
  cases best with
  | none =>
    simp only [pickStep]
    split <;> simp [bestLen] <;> omega
  | some b =>
    simp only [pickStep]
    split <;> simp [bestLen] <;> omega

theorem pickStep_eq_none (best : Option (Nat × RegexMatch × Command))
    (m : Nat × RegexMatch × Command) :
    pickStep best m = none ↔ best = none ∧ candLen m = 0 := by
  cases best with
  | none =>
    simp only [pickStep]
    split <;> simp <;> omega
  | some b =>
    simp only [pickStep]
    split <;> simp

theorem pickLongestAux_eq_none (ms : List (Nat × RegexMatch × Command)) :
    ∀ best, pickLongestAux best ms = none ↔
      best = none ∧ ∀ x ∈ ms, candLen x = 0 := by
  induction ms with
  | nil => intro best; simp [pickLongestAux]
  | cons m rest ih =>
    intro best
    rw [pickLongestAux, ih, pickStep_eq_none, List.forall_mem_cons]
    tauto

theorem pickLongestAux_ge (ms : List (Nat × RegexMatch × Command)) :
    ∀ best sel, pickLongestAux best ms = some sel →
      bestLen best ≤ candLen sel ∧ ∀ x ∈ ms, candLen x ≤ candLen sel := by
  induction ms with
  | nil =>
    intro best sel h
    rw [pickLongestAux] at h
    subst h
    simp [bestLen]
  | cons m rest ih =>
    intro best sel h
    rw [pickLongestAux] at h
    obtain ⟨h1, h2⟩ := ih (pickStep best m) sel h
    refine ⟨le_trans (bestLen_pickStep_left best m) h1, ?_⟩
    rw [List.forall_mem_cons]
    exact ⟨le_trans (bestLen_pickStep_right best m) h1, h2⟩

theorem pickLongestAux_first (ms : List (Nat × RegexMatch × Command)) :
    ∀ best sel, pickLongestAux best ms = some sel →
      best = some sel ∨
      ∃ l1 l2, ms = l1 ++ sel :: l2 ∧ bestLen best < candLen sel ∧
        ∀ x ∈ l1, candLen x < candLen sel := by
  induction ms with
  | nil =>
    intro best sel h
    rw [pickLongestAux] at h
    exact Or.inl h
  | cons m rest ih =>
    intro best sel h
    rw [pickLongestAux] at h
    rcases ih (pickStep best m) sel h with hstep | ⟨l1, l2, hrest, hlt, hall⟩
    · cases best with
      | none =>
        rw [pickStep] at hstep
        by_cases hpos : 0 < candLen m
        · rw [if_pos hpos] at hstep
          obtain rfl : m = sel := Option.some.inj hstep
          exact Or.inr ⟨[], rest, rfl, by simpa [bestLen] using hpos, by simp⟩
        · rw [if_neg hpos] at hstep
          exact absurd hstep (by simp)
      | some b =>
        rw [pickStep] at hstep
        by_cases hlt2 : candLen b < candLen m
        · rw [if_pos hlt2] at hstep
          obtain rfl : m = sel := Option.some.inj hstep
          exact Or.inr ⟨[], rest, rfl, by simpa [bestLen] using hlt2, by simp⟩
        · rw [if_neg hlt2] at hstep
          exact Or.inl hstep
    · refine Or.inr ⟨m :: l1, l2, by simp [hrest], ?_, ?_⟩
      · exact lt_of_le_of_lt (bestLen_pickStep_left best m) hlt
      · rw [List.forall_mem_cons]
        exact ⟨lt_of_le_of_lt (bestLen_pickStep_right best m) hlt, hall⟩

theorem pickLongest_eq_none (ms : List (Nat × RegexMatch × Command)) :
    pickLongest ms = none ↔ ∀ x ∈ ms, candLen x = 0 := by
  rw [pickLongest, pickLongestAux_eq_none]
  simp

theorem pickLongest_spec (ms : List (Nat × RegexMatch × Command))
    (sel : Nat × RegexMatch × Command) (h : pickLongest ms = some sel) :
    0 < candLen sel ∧
    (∃ l1 l2, ms = l1 ++ sel :: l2 ∧ ∀ x ∈ l1, candLen x < candLen sel) ∧
    ∀ x ∈ ms, candLen x ≤ candLen sel := by
  rw [pickLongest] at h
  rcases pickLongestAux_first ms none sel h with hnone | ⟨l1, l2, hms, hlt, hall⟩
  · exact absurd hnone.symm (by simp)
  · obtain ⟨-, hge⟩ := pickLongestAux_ge ms none sel h
    exact ⟨by simpa [bestLen] using hlt, ⟨l1, l2, hms, hall⟩, hge⟩

theorem pickLongest_mem (ms : List (Nat × RegexMatch × Command))
    (sel : Nat × RegexMatch × Command) (h : pickLongest ms = some sel) :
    sel ∈ ms := by
  obtain ⟨-, ⟨l1, l2, hms, -⟩, -⟩ := pickLongest_spec ms sel h
  subst hms
  simp

theorem exists_nat_cases {P : Nat → Prop} :
    (∃ j, P j) ↔ P 0 ∨ ∃ j, P (j + 1) := by
  constructor
  · rintro ⟨j, hj⟩
    cases j with
    | zero => exact Or.inl hj
    | succ j => exact Or.inr ⟨j, hj⟩
  · rintro (h | ⟨j, hj⟩)
    exacts [⟨0, h⟩, ⟨j + 1, hj⟩]

theorem mem_commandCandidatesFrom (sq : Bool) (msg : String) :
    ∀ (cs : List Command) (k i : Nat) (m : RegexMatch) (c : Command),
      ((i, m, c) ∈ commandCandidatesFrom sq msg k cs) ↔
      ∃ j, i = k + j ∧ cs.get? j = some c ∧ c.trigger msg = some m ∧
        m.index = 0 ∧ (c.core || !sq) = true := by
  intro cs
  induction cs with
  | nil => intro k i m c; simp [commandCandidatesFrom]
  | cons c0 rest ih =>
    intro k i m c
    rw [exists_nat_cases]
    simp only [List.get?]
    rcases htr : c0.trigger msg with _ | m0
    · simp only [commandCandidatesFrom, htr, ih]
      constructor
      · rintro ⟨j, rfl, hrest⟩
        exact Or.inr ⟨j, by omega, hrest⟩
      · rintro (⟨-, hc, hct, -⟩ | ⟨j, hij, hrest⟩)
        · obtain rfl : c0 = c := Option.some.inj hc
          rw [htr] at hct
          exact absurd hct (by simp)
        · exact ⟨j, by omega, hrest⟩
    · by_cases hidx : m0.index = 0
      · by_cases hcond : (c0.core || !sq) = true
        · simp only [commandCandidatesFrom, htr, if_pos hidx, if_pos hcond,
            List.mem_cons, ih]
          constructor
          · rintro (heq | ⟨j, rfl, hrest⟩)
            · obtain ⟨rfl, rfl, rfl⟩ : i = k ∧ m = m0 ∧ c = c0 := by
                simpa [Prod.ext_iff] using heq
              exact Or.inl ⟨by omega, rfl, htr, hidx, hcond⟩
            · exact Or.inr ⟨j, by omega, hrest⟩
          · rintro (⟨hik, hc, hct, -⟩ | ⟨j, hij, hrest⟩)
            · obtain rfl : c0 = c := Option.some.inj hc
              rw [htr] at hct
              obtain rfl : m0 = m := Option.some.inj hct
              subst hik
              exact Or.inl (by simp)
            · exact Or.inr ⟨j, by omega, hrest⟩
        · simp only [commandCandidatesFrom, htr, if_pos hidx, if_neg hcond, ih]
          constructor
          · rintro ⟨j, rfl, hrest⟩
            exact Or.inr ⟨j, by omega, hrest⟩
          · rintro (⟨-, hc, hct, -, hcnd⟩ | ⟨j, hij, hrest⟩)
            · obtain rfl : c0 = c := Option.some.inj hc
              exact absurd hcnd hcond
            · exact ⟨j, by omega, hrest⟩
      · simp only [commandCandidatesFrom, htr, if_neg hidx, ih]
        constructor
        · rintro ⟨j, rfl, hrest⟩
          exact Or.inr ⟨j, by omega, hrest⟩
        · rintro (⟨-, hc, hct, hix, -⟩ | ⟨j, hij, hrest⟩)
          · obtain rfl : c0 = c := Option.some.inj hc
            rw [htr] at hct
            obtain rfl : m0 = m := Option.some.inj hct
            exact absurd hix hidx
          · exact ⟨j, by omega, hrest⟩

theorem mem_commandCandidates (svc : IntentService) (now : Int)
    (room : Option String) (msg : String) (i : Nat) (m : RegexMatch)
    (c : Command) :
    ((i, m, c) ∈ commandCandidates svc now room msg) ↔
      svc.commands.get? i = some c ∧ c.trigger msg = some m ∧ m.index = 0 ∧
        (c.core || !(svc.squelched now room)) = true := by
  rw [commandCandidates, mem_commandCandidatesFrom]
  constructor
  · rintro ⟨j, rfl, h⟩
    simpa using h
  · rintro ⟨h1, h2, h3, h4⟩
    exact ⟨i, by omega, h1, h2, h3, h4⟩

theorem mem_listenerCandidatesFrom (msg : String) :
    ∀ (ls : List Listener) (k i : Nat) (m : RegexMatch) (l : Listener),
      ((i, m, l) ∈ listenerCandidatesFrom msg k ls) ↔
      ∃ j, i = k + j ∧ ls.get? j = some l ∧ l.trigger msg = some m := by
  intro ls
  induction ls with
  | nil => intro k i m l; simp [listenerCandidatesFrom]
  | cons l0 rest ih =>
    intro k i m l
    rw [exists_nat_cases]
    simp only [List.get?]
    rcases htr : l0.trigger msg with _ | m0
    · simp only [listenerCandidatesFrom, htr, ih]
      constructor
      · rintro ⟨j, rfl, hrest⟩
        exact Or.inr ⟨j, by omega, hrest⟩
      · rintro (⟨-, hl, hct⟩ | ⟨j, hij, hrest⟩)
        · obtain rfl : l0 = l := Option.some.inj hl
          rw [htr] at hct
          exact absurd hct (by simp)
        · exact ⟨j, by omega, hrest⟩
    · simp only [listenerCandidatesFrom, htr, List.mem_cons, ih]
      constructor
      · rintro (heq | ⟨j, rfl, hrest⟩)
        · obtain ⟨rfl, rfl, rfl⟩ : i = k ∧ m = m0 ∧ l = l0 := by
            simpa [Prod.ext_iff] using heq
          exact Or.inl ⟨by omega, rfl, htr⟩
        · exact Or.inr ⟨j, by omega, hrest⟩
      · rintro (⟨hik, hl, hct⟩ | ⟨j, hij, hrest⟩)
        · obtain rfl : l0 = l := Option.some.inj hl
          rw [htr] at hct
          obtain rfl : m0 = m := Option.some.inj hct
          subst hik
          exact Or.inl (by simp)
        · exact Or.inr ⟨j, by omega, hrest⟩

theorem mem_listenerCandidates (svc : IntentService) (msg : String) (i : Nat)
    (m : RegexMatch) (l : Listener) :
    ((i, m, l) ∈ listenerCandidates svc msg) ↔
      svc.listeners.get? i = some l ∧ l.trigger msg = some m := by
  rw [listenerCandidates, mem_listenerCandidatesFrom]
  constructor
  · rintro ⟨j, rfl, h⟩
    simpa using h
  · rintro ⟨h1, h2⟩
    exact ⟨i, by omega, h1, h2⟩

theorem runListeners_events (cands : List (Nat × RegexMatch × Listener))
    (msg : String) :
    ∀ e ∈ (runListeners cands msg).1,
      ∃ i r, e = Event.listenerInvoked i msg r ∧
        ∃ m l, (i, m, l) ∈ cands := by
  induction cands with
  | nil => simp [runListeners]
  | cons x rest ih =>
    obtain ⟨i, m, l⟩ := x
    intro e he
    rcases hf : l.func msg with _ | b
    · simp only [runListeners, hf] at he
      simp only [List.mem_singleton] at he
      exact ⟨i, none, he, m, l, by simp⟩
    · cases b with
      | true =>
        simp only [runListeners, hf] at he
        simp only [List.mem_singleton] at he
        exact ⟨i, some true, he, m, l, by simp⟩
      | false =>
        simp only [runListeners, hf, List.mem_cons] at he
        rcases he with rfl | he
        · exact ⟨i, some false, rfl, m, l, by simp⟩
        · obtain ⟨i', r', he', m', l', hm'⟩ := ih e he
          exact ⟨i', r', he', m', l', by simp [hm']⟩

theorem runListeners_filter_fallback (cands : List (Nat × RegexMatch × Listener))
    (msg : String) :
    ((runListeners cands msg).1).filter isFallbackReply = [] := by
  rw [List.filter_eq_nil]
  intro e he
  obtain ⟨i, r, rfl, -⟩ := runListeners_events cands msg e he
  simp [isFallbackReply]

theorem runListeners_filter_generic (cands : List (Nat × RegexMatch × Listener))
    (msg : String) :
    ((runListeners cands msg).1).filter isGenericReply = [] := by
  rw [List.filter_eq_nil]
  intro e he
  obtain ⟨i, r, rfl, -⟩ := runListeners_events cands msg e he
  simp [isGenericReply]

theorem runListeners_true_last (msg : String) :
    ∀ (cands : List (Nat × RegexMatch × Listener))
      (pre : List Event) (i : Nat) (post : List Event),
      (runListeners cands msg).1 = pre ++ Event.listenerInvoked i msg (some true) :: post →
      post = [] := by
  intro cands
  induction cands with
  | nil =>
    intro pre i post h
    rw [runListeners] at h
    exact absurd h.symm (by simp)
  | cons x rest ih =>
    obtain ⟨j, m, l⟩ := x
    intro pre i post h
    rcases hf : l.func msg with _ | b
    · rw [runListeners, hf] at h
      cases pre with
      | nil => simp at h
      | cons a pre' => simp at h
    · cases b with
      | true =>
        rw [runListeners, hf] at h
        cases pre with
        | nil =>
          simp only [List.nil_append, List.cons.injEq] at h
          exact h.2.symm
        | cons a pre' => simp at h
      | false =>
        rw [runListeners, hf] at h
        cases pre with
        | nil =>
          simp only [List.nil_append, List.cons.injEq] at h
          exact absurd h.1 (by simp)
        | cons a pre' =>
          simp only [List.cons_append, List.cons.injEq] at h
          exact ih pre' i post h.2

theorem commandStage_none (svc : IntentService) (now : Int)
    (room : Option String) (m : String) :
    commandStage svc now room m = none ↔
      (commandCandidates svc now room m).isEmpty = true := by
  by_cases h : (commandCandidates svc now room m).isEmpty <;>
    simp [commandStage, h]

theorem commandStage_some_badFunc (svc : IntentService) (now : Int)
    (room : Option String) (m : String)
    (h : (commandCandidates svc now room m).isEmpty = false)
    (hp : pickLongest (commandCandidates svc now room m) = none) :
    commandStage svc now room m = some ([], some JsError.badFunc) := by
  simp [commandStage, h, hp]

theorem commandStage_some_sel (svc : IntentService) (now : Int)
    (room : Option String) (m : String) (sel : Nat × RegexMatch × Command)
    (h : (commandCandidates svc now room m).isEmpty = false)
    (hp : pickLongest (commandCandidates svc now room m) = some sel) :
    commandStage svc now room m = some
      ([Event.commandInvoked sel.1 (splitArgs (strDrop m (candLen sel)))],
        cmdErr (sel.2.2.func (splitArgs (strDrop m (candLen sel))))) := by
  simp [commandStage, h, hp]

theorem cmdErr_ne_badFunc (r : Except Unit Unit) :
    cmdErr r ≠ some JsError.badFunc := by
  rcases r <;> simp [cmdErr]

theorem listenerStage_squelched (svc : IntentService) (now : Int)
    (room : Option String) (m : String) (h : svc.squelched now room = true) :
    listenerStage svc now room m = ([], ListenOutcome.fellThrough) := by
  simp [listenerStage, h]

theorem listenerStage_not_squelched (svc : IntentService) (now : Int)
    (room : Option String) (m : String) (h : svc.squelched now room = false) :
    listenerStage svc now room m =
      runListeners (jsSort (listenerCandidates svc m)) m := by
  simp [listenerStage, h]

theorem listenerStage_filter_fallback (svc : IntentService) (now : Int)
    (room : Option String) (m : String) :
    ((listenerStage svc now room m).1).filter isFallbackReply = [] := by
  by_cases h : svc.squelched now room = true
  · simp [listenerStage, h]
  · rw [listenerStage_not_squelched svc now room m (by simpa using h)]
    exact runListeners_filter_fallback _ _

theorem listenerPath_trace (svc : IntentService) (now : Int)
    (room : Option String) (m : String) (ic : Bool) :
    (listenerPath svc now room m ic).1 =
      (listenerStage svc now room m).1 ++
        (if (listenerStage svc now room m).2 = ListenOutcome.fellThrough
         then fallbackStage svc now room ic else []) := by
  rcases h : (listenerStage svc now room m).2 <;> simp [listenerPath, h]

theorem listenerPath_ne_badFunc (svc : IntentService) (now : Int)
    (room : Option String) (m : String) (ic : Bool) :
    (listenerPath svc now room m ic).2 ≠ some JsError.badFunc := by
  rcases h : (listenerStage svc now room m).2 <;> simp [listenerPath, h]

theorem fallbackStage_mem_fallback (svc : IntentService) (now : Int)
    (room : Option String) (ic : Bool) (e : Event)
    (h : e ∈ fallbackStage svc now room ic) : isFallbackReply e = true := by
  cases ic with
  | false => simp [fallbackStage] at h
  | true =>
    by_cases hsq : svc.squelched now room = true
    · simp [fallbackStage, hsq] at h
      subst h
      decide
    · simp [fallbackStage, hsq] at h
      subst h
      decide

theorem fallback_not_generic (e : Event) (h : isFallbackReply e = true) :
    isGenericReply e = false := by
  cases e with
  | reply ch key =>
    simp [isFallbackReply] at h
    rcases h with rfl | rfl <;> simp [isGenericReply]
  | commandInvoked i args => rfl
  | listenerInvoked i m r => rfl

theorem mem_listenerPath_cases (svc : IntentService) (now : Int)
    (room : Option String) (m : String) (ic : Bool) (e : Event)
    (h : e ∈ (listenerPath svc now room m ic).1) :
    e ∈ (runListeners (jsSort (listenerCandidates svc m)) m).1 ∨
      isFallbackReply e = true := by
  rw [listenerPath_trace] at h
  rcases List.mem_append.mp h with h1 | h2
  · by_cases hsq : svc.squelched now room = true
    · rw [listenerStage_squelched svc now room m hsq] at h1
      simp at h1
    · rw [listenerStage_not_squelched svc now room m (by simpa using hsq)] at h1
      exact Or.inl h1
  · split at h2
    · exact Or.inr (fallbackStage_mem_fallback svc now room ic e h2)
    · simp at h2

theorem mem_inner_cases (svc : IntentService) (now : Int) (route : Route)
    (msg0 : String) (e : Event)
    (h : e ∈ (handleMessageInner svc now route msg0).1) :
    (∃ sel, pickLongest (commandCandidates svc now route.room
        (strippedMsg svc msg0)) = some sel ∧
      e = Event.commandInvoked sel.1
        (splitArgs (strDrop (strippedMsg svc msg0) (candLen sel)))) ∨
    e ∈ (runListeners (jsSort (listenerCandidates svc (strippedMsg svc msg0)))
        (strippedMsg svc msg0)).1 ∨
    isFallbackReply e = true := by
  by_cases hflag : isCommandFlag svc route msg0 = true
  · rw [handleMessageInner] at h
    rw [if_pos hflag] at h
    rcases hcs : commandStage svc now route.room (strippedMsg svc msg0) with _ | r
    · rw [hcs] at h
      rcases mem_listenerPath_cases svc now route.room (strippedMsg svc msg0) _ e h
        with h1 | h2
      · exact Or.inr (Or.inl h1)
      · exact Or.inr (Or.inr h2)
    · rw [hcs] at h
      by_cases hemp : (commandCandidates svc now route.room
          (strippedMsg svc msg0)).isEmpty = true
      · rw [(commandStage_none svc now route.room (strippedMsg svc msg0)).mpr hemp]
          at hcs
        exact absurd hcs (by simp)
      · rcases hp : pickLongest (commandCandidates svc now route.room
            (strippedMsg svc msg0)) with _ | sel
        · rw [commandStage_some_badFunc svc now route.room (strippedMsg svc msg0)
            (by simpa using hemp) hp] at hcs
          obtain rfl : ([], some JsError.badFunc) = r := Option.some.inj hcs
          simp at h
        · rw [commandStage_some_sel svc now route.room (strippedMsg svc msg0) sel
            (by simpa using hemp) hp] at hcs
          obtain rfl := Option.some.inj hcs
          simp only [List.mem_singleton] at h
          exact Or.inl ⟨sel, rfl, h⟩
  · rw [handleMessageInner] at h
    rw [if_neg hflag] at h
    rcases mem_listenerPath_cases svc now route.room (strippedMsg svc msg0) _ e h
      with h1 | h2
    · exact Or.inr (Or.inl h1)
    · exact Or.inr (Or.inr h2)

theorem handleMessage_eq (svc : IntentService) (now : Int) (route : Route)
    (msg0 : String) :
    svc.handleMessage now route msg0 =
      (handleMessageInner svc now route msg0).1 ++
        (if (handleMessageInner svc now route msg0).2.isSome
         then [Event.reply Channel.normal "?generic_error"] else []) := by
  rcases h : (handleMessageInner svc now route msg0).2 <;>
    simp [IntentService.handleMessage, h]

theorem mem_handleMessage_cases (svc : IntentService) (now : Int)
    (route : Route) (msg0 : String) (e : Event)
    (h : e ∈ svc.handleMessage now route msg0) :
    e ∈ (handleMessageInner svc now route msg0).1 ∨
      e = Event.reply Channel.normal "?generic_error" := by
  rw [handleMessage_eq] at h
  rcases List.mem_append.mp h with h1 | h2
  · exact Or.inl h1
  · split at h2
    · exact Or.inr (by simpa using h2)
    · simp at h2

theorem handleMessage_commandInvoked (svc : IntentService) (now : Int)
    (route : Route) (msg0 : String) (i : Nat) (args : List String)
    (h : Event.commandInvoked i args ∈ svc.handleMessage now route msg0) :
    ∃ m c, (i, m, c) ∈ commandCandidates svc now route.room
      (strippedMsg svc msg0) := by
  rcases mem_handleMessage_cases svc now route msg0 _ h with hin | heq
  · rcases mem_inner_cases svc now route msg0 _ hin with ⟨sel, hp, heq⟩ | hmem | hfb
    · obtain ⟨rfl, -⟩ : i = sel.1 ∧ args = splitArgs
          (strDrop (strippedMsg svc msg0) (candLen sel)) := by simpa using heq
      exact ⟨sel.2.1, sel.2.2, pickLongest_mem _ _ hp⟩
    · obtain ⟨i', r', heq, -⟩ := runListeners_events _ _ _ hmem
      exact absurd heq (by simp)
    · simp [isFallbackReply] at hfb
  · exact absurd heq (by simp)

theorem inner_listenerInvoked (svc : IntentService) (now : Int)
    (route : Route) (msg0 : String) (i : Nat) (s : String) (r : Option Bool)
    (h : Event.listenerInvoked i s r ∈ (handleMessageInner svc now route msg0).1) :
    s = strippedMsg svc msg0 ∧
      ∃ m l, (i, m, l) ∈ listenerCandidates svc (strippedMsg svc msg0) := by
  rcases mem_inner_cases svc now route msg0 _ h with ⟨sel, -, heq⟩ | hmem | hfb
  · exact absurd heq (by simp)
  · obtain ⟨i', r', heq, m, l, hm⟩ := runListeners_events _ _ _ hmem
    obtain ⟨rfl, rfl, rfl⟩ : i = i' ∧ s = strippedMsg svc msg0 ∧ r = r' := by
      simpa using heq
    exact ⟨rfl, m, l, by simpa [jsSort] using hm⟩
  · simp [isFallbackReply] at hfb

theorem inner_filter_generic (svc : IntentService) (now : Int) (route : Route)
    (msg0 : String) :
    ((handleMessageInner svc now route msg0).1).filter isGenericReply = [] := by
  rw [List.filter_eq_nil]
  intro e he
  rcases mem_inner_cases svc now route msg0 e he with ⟨sel, -, rfl⟩ | hmem | hfb
  · simp [isGenericReply]
  · obtain ⟨i, r, rfl, -⟩ := runListeners_events _ _ _ hmem
    simp [isGenericReply]
  · simp [fallback_not_generic e hfb]

theorem inner_eq_some (svc : IntentService) (now : Int) (route : Route)
    (msg0 : String) (r : List Event × Option JsError)
    (hflag : isCommandFlag svc route msg0 = true)
    (hcs : commandStage svc now route.room (strippedMsg svc msg0) = some r) :
    handleMessageInner svc now route msg0 = r := by
  rw [handleMessageInner, if_pos hflag, hcs]

theorem inner_eq_listenerPath_of_flag_false (svc : IntentService) (now : Int)
    (route : Route) (msg0 : String)
    (hflag : isCommandFlag svc route msg0 = false) :
    handleMessageInner svc now route msg0 =
      listenerPath svc now route.room (strippedMsg svc msg0)
        (isCommandFlag svc route msg0) := by
  rw [handleMessageInner, if_neg (by simp [hflag])]

theorem inner_eq_listenerPath_of_none (svc : IntentService) (now : Int)
    (route : Route) (msg0 : String)
    (hcs : commandStage svc now route.room (strippedMsg svc msg0) = none) :
    handleMessageInner svc now route msg0 =
      listenerPath svc now route.room (strippedMsg svc msg0)
        (isCommandFlag svc route msg0) := by
  by_cases hflag : isCommandFlag svc route msg0 = true
  · rw [handleMessageInner, if_pos hflag, hcs]
  · rw [handleMessageInner, if_neg (by simp [hflag])]

theorem lookupTimer_setTimer (ts : List (String × Int)) (key : String) (t : Int) :
    lookupTimer (setTimer ts key t) key = some t := by
  induction ts with
  | nil => simp [setTimer, lookupTimer]
  | cons p rest ih =>
    obtain ⟨k0, t0⟩ := p
    by_cases h : k0 = key
    · simp [setTimer, h, lookupTimer]
    · simp [setTimer, h, lookupTimer, ih]

/-- C3: the claim says listener candidates are tried in descending order of
matched-substring length.  The code sorts with a comparator returning a
Boolean, which the runtime's sort coerces to 0 or 1 and never to a negative
number, so no descending sort happens and candidates run in registration
order — contradicting the code's own comment ("the next longest listener is
executed").  At this failing input the listener with matched length 2,
registered first, runs before the listener with matched length 5. -/
theorem c3_registration_order_not_length_order :
    svcC3.handleMessage 0 roomRoute "abcde" =
      [Event.listenerInvoked 0 "abcde" (some false),
        Event.listenerInvoked 1 "abcde" (some false)] ∧
    (listenerCandidates svcC3 "abcde").map
        (fun x => (x.1, x.2.1.matched.length)) = [(0, 2), (1, 5)] := by
  decide

/-- C4: an error thrown by the matched handler is intercepted exactly once —
the trace is the pre-error events plus a single generic-error reply — and a
subsequent, unrelated message is processed exactly as it would be on its
own. -/
theorem c4_fault_isolation (svc : IntentService) (now : Int) (r1 r2 : Route)
    (m1 m2 : String)
    (h : (handleMessageInner svc now r1 m1).2.isSome = true) :
    svc.handleMessage now r1 m1 =
      (handleMessageInner svc now r1 m1).1 ++
        [Event.reply Channel.normal "?generic_error"] ∧
    ((svc.handleMessage now r1 m1).filter isGenericReply).length = 1 ∧
    processMessages svc now [(r1, m1), (r2, m2)] =
      [svc.handleMessage now r1 m1, svc.handleMessage now r2 m2] := by
  refine ⟨?_, ?_, rfl⟩
  · rw [handleMessage_eq, if_pos h]
  · rw [handleMessage_eq, if_pos h, List.filter_append, inner_filter_generic]
    decide

/-- C4 witness: the command handler of svcC4 throws on "boom now"; the error
is caught, exactly one generic reply is sent, and the following message is
processed independently. -/
theorem c4_witness :
    (handleMessageInner svcC4 0 dmRoute "boom now").2.isSome = true ∧
    svcC4.handleMessage 0 dmRoute "boom now" =
      (handleMessageInner svcC4 0 dmRoute "boom now").1 ++
        [Event.reply Channel.normal "?generic_error"] ∧
    ((svcC4.handleMessage 0 dmRoute "boom now").filter isGenericReply).length = 1 ∧
    processMessages svcC4 0 [(dmRoute, "boom now"), (dmRoute, "quiet")] =
      [svcC4.handleMessage 0 dmRoute "boom now",
        svcC4.handleMessage 0 dmRoute "quiet"] := by
  have h : (handleMessageInner svcC4 0 dmRoute "boom now").2.isSome = true := by
    decide
  exact ⟨h, c4_fault_isolation svcC4 0 dmRoute dmRoute "boom now" "quiet" h⟩

/-- C7 counterexample: the conversation id "" is non-null, and
squelch("", true) stores an expiry strictly after now, yet squelched("")
reports false immediately, because `if (room && ...)` treats the empty
string as falsy.  This falsifies both "true immediately" and the
"exactly when an entry with future expiry exists" biconditional. -/
theorem c7_counterexample :
    (svcEmpty.squelch 0 (some "") (some true)).squelched 0 (some "") = false ∧
    lookupTimer ((svcEmpty.squelch 0 (some "") (some true)).squelch_timers) "" =
      some 600000 ∧
    ((0 : Int) < 600000) := by decide

/-- C7 amended: for every non-null, non-empty conversation id, squelching
makes squelched true immediately and false once more than ten minutes
(600000 ms) have elapsed; unsquelching makes it false immediately; and
squelched is true exactly when an entry exists whose expiry is strictly
after the current time. -/
theorem c7_squelch_spec (svc : IntentService) (now : Int) (s : String)
    (h : s ≠ "") :
    (svc.squelch now (some s) (some true)).squelched now (some s) = true ∧
    (∀ now2 : Int, now + 600000 < now2 →
      (svc.squelch now (some s) (some true)).squelched now2 (some s) = false) ∧
    (svc.squelch now (some s) (some false)).squelched now (some s) = false ∧
    (svc.squelched now (some s) = true ↔
      ∃ t, lookupTimer svc.squelch_timers s = some t ∧ now < t) := by
  have htr : roomTruthy (some s) = true := by simp [roomTruthy, h]
  refine ⟨?_, ?_, ?_, ?_⟩
  · simp [IntentService.squelch, IntentService.squelched, htr, roomKey,
      lookupTimer_setTimer]
    try omega
  · intro now2 h2
    simp [IntentService.squelch, IntentService.squelched, htr, roomKey,
      lookupTimer_setTimer]
    try omega
  · simp [IntentService.squelch, IntentService.squelched, htr, roomKey,
      lookupTimer_setTimer]
    try omega
  · simp only [IntentService.squelched, htr, roomKey, if_true]
    rcases hl : lookupTimer svc.squelch_timers s with _ | t
    · simp
    · simp only [decide_eq_true_eq, Option.some.injEq]
      constructor
      · intro hlt
        exact ⟨t, rfl, by omega⟩
      · rintro ⟨t', rfl, hlt⟩
        omega

/-- C7 witness: concrete instantiation at id "room1" and time 0: squelching
mutes immediately, the mute has lapsed at time 600001, and unsquelching
clears immediately. -/
theorem c7_witness :
    ("room1" : String) ≠ "" ∧
    (svcEmpty.squelch 0 (some "room1") (some true)).squelched 0 (some "room1") = true ∧
    (svcEmpty.squelch 0 (some "room1") (some true)).squelched 600001 (some "room1") = false ∧
    (svcEmpty.squelch 0 (some "room1") (some false)).squelched 0 (some "room1") = false := by
  have h := c7_squelch_spec svcEmpty 0 "room1" (by decide)
  exact ⟨by decide, h.1, h.2.1 600001 (by decide), h.2.2.1⟩

/-- C8: listener execution stops at the first handler returning truthy — a
truthy invocation is always the last event of the listener trace — and a
falsy return hands over to the next candidate in order, whose invocation
follows immediately; the head candidate of a non-empty candidate list is
always invoked first. -/
theorem c8_stop_on_first_truthy (cands : List (Nat × RegexMatch × Listener))
    (msg : String) :
    (∀ pre i post, (runListeners cands msg).1 =
        pre ++ Event.listenerInvoked i msg (some true) :: post → post = []) ∧
    (∀ i m l rest, cands = (i, m, l) :: rest → l.func msg = Except.ok false →
      (runListeners cands msg).1 =
        Event.listenerInvoked i msg (some false) :: (runListeners rest msg).1) ∧
    (∀ i m l rest, cands = (i, m, l) :: rest →
      ∃ r, ((runListeners cands msg).1).head? =
        some (Event.listenerInvoked i msg r)) := by
  refine ⟨fun pre i post h => runListeners_true_last msg cands pre i post h,
    ?_, ?_⟩
  · rintro i m l rest rfl hf
    simp [runListeners, hf]
  · rintro i m l rest rfl
    rcases hf : l.func msg with _ | b
    · exact ⟨none, by simp [runListeners, hf]⟩
    · cases b with
      | true => exact ⟨some true, by simp [runListeners, hf]⟩
      | false => exact ⟨some false, by simp [runListeners, hf]⟩

/-- C8 witness: on the concrete candidate list candsC8 (handlers returning
false, true, false), the falsy first candidate hands over to the tail, and
the truthy invocation at index 1 is the last event of the trace. -/
theorem c8_witness :
    (runListeners candsC8 "x").1 =
      Event.listenerInvoked 0 "x" (some false) :: (runListeners candsC8tail "x").1 ∧
    ([] : List Event) = [] := by
  refine ⟨(c8_stop_on_first_truthy candsC8 "x").2.1 0 ⟨0, "a"⟩
    ⟨allTrigger, constListener false⟩ candsC8tail rfl rfl, ?_⟩
  exact (c8_stop_on_first_truthy candsC8 "x").1
    [Event.listenerInvoked 0 "x" (some false)] 1 [] (by decide)

/-- C10 counterexample: splitArgs on the empty string does not yield an
empty sequence: "".split(' ') is [""] in JavaScript, and the lone empty
token is pushed as an argument. -/
theorem c10_counterexample : splitArgs "" ≠ [] := by decide

/-- C10 amended: splitArgs on the empty string, or on any input that trims
to the empty string, yields the one-element sequence containing the empty
argument. -/
theorem c10_empty_input (s : String) (h : jsTrim s = "") :
    splitArgs s = [""] := by
  simp only [splitArgs, h]
  decide

/-- C10 witness: concrete instantiation at the empty string. -/
theorem c10_witness : jsTrim "" = "" ∧ splitArgs "" = [""] :=
  ⟨by decide, c10_empty_input "" (by decide)⟩

/-- C9 counterexample: with one registered command whose trigger produces an
empty match at index 0 (as a pattern like x-star does), an addressed message
makes the matching logic itself raise — the candidate list is non-empty,
the selection loop never displaces its sentinel, and `matched.func` is
undefined — so matching is not total outside handler code. -/
theorem c9_counterexample :
    handleMessageInner svcC9 0 dmRoute "ping" = ([], some JsError.badFunc) ∧
    (commandCandidates svcC9 0 none "ping").isEmpty = false := by decide

/-- C9 amended: matching, tokenizing and squelch logic raise no error except
in exactly one case: the dispatcher itself throws (undefined handler call)
if and only if the message is flagged as a command, the command candidate
list is non-empty, and every candidate's matched substring has length
zero. -/
theorem c9_total_except_all_empty_matches (svc : IntentService) (now : Int)
    (route : Route) (msg0 : String) :
    (handleMessageInner svc now route msg0).2 = some JsError.badFunc ↔
      isCommandFlag svc route msg0 = true ∧
      (commandCandidates svc now route.room (strippedMsg svc msg0)).isEmpty = false ∧
      ∀ x ∈ commandCandidates svc now route.room (strippedMsg svc msg0),
        candLen x = 0 := by
  by_cases hflag : isCommandFlag svc route msg0 = true
  · by_cases hemp : (commandCandidates svc now route.room
        (strippedMsg svc msg0)).isEmpty = true
    · rw [inner_eq_listenerPath_of_none svc now route msg0
        ((commandStage_none svc now route.room (strippedMsg svc msg0)).mpr hemp)]
      constructor
      · intro h
        exact absurd h (listenerPath_ne_badFunc svc now route.room
          (strippedMsg svc msg0) (isCommandFlag svc route msg0))
      · rintro ⟨-, h2, -⟩
        rw [hemp] at h2
        exact absurd h2 (by simp)
    · have hemp' : (commandCandidates svc now route.room
          (strippedMsg svc msg0)).isEmpty = false := by simpa using hemp
      rcases hp : pickLongest (commandCandidates svc now route.room
          (strippedMsg svc msg0)) with _ | sel
      · rw [inner_eq_some svc now route msg0 _ hflag
          (commandStage_some_badFunc svc now route.room (strippedMsg svc msg0)
            hemp' hp)]
        simp only [true_iff]
        exact ⟨hflag, hemp', (pickLongest_eq_none _).mp hp⟩
      · rw [inner_eq_some svc now route msg0 _ hflag
          (commandStage_some_sel svc now route.room (strippedMsg svc msg0) sel
            hemp' hp)]
        constructor
        · intro h
          exact absurd h (cmdErr_ne_badFunc _)
        · rintro ⟨-, -, hall⟩
          obtain ⟨hpos, -, -⟩ := pickLongest_spec _ sel hp
          have hz := hall sel (pickLongest_mem _ _ hp)
          omega
  · have hflag' : isCommandFlag svc route msg0 = false := by simpa using hflag
    rw [inner_eq_listenerPath_of_flag_false svc now route msg0 hflag']
    constructor
    · intro h
      exact absurd h (listenerPath_ne_badFunc svc now route.room
        (strippedMsg svc msg0) (isCommandFlag svc route msg0))
    · rintro ⟨h1, -⟩
      exact absurd h1 hflag

/-- C5 counterexample: a non-empty candidate set in which the (unique)
candidate's matched substring has length zero: the claim says its handler is
invoked, but no handler runs — the selection keeps its sentinel,
`matched.func` is undefined, and the dispatch ends in the caught TypeError
and a generic-error reply only. -/
theorem c5_counterexample :
    (commandCandidates svcC5 0 none "hello").isEmpty = false ∧
    svcC5.handleMessage 0 dmRoute "hello" =
      [Event.reply Channel.normal "?generic_error"] := by decide

/-- C5 amended: whenever the candidate set contains a candidate with a
non-empty matched substring, selection succeeds and picks a candidate of
maximal matched length that is the first such in registration order (all
earlier candidates are strictly shorter), and the dispatch trace starts with
that candidate's handler invocation on the split remainder of the text. -/
theorem c5_longest_command_wins (svc : IntentService) (now : Int)
    (route : Route) (msg0 : String)
    (hflag : isCommandFlag svc route msg0 = true)
    (hpos : ∃ x ∈ commandCandidates svc now route.room (strippedMsg svc msg0),
      0 < candLen x) :
    ∃ sel l1 l2,
      pickLongest (commandCandidates svc now route.room (strippedMsg svc msg0)) =
        some sel ∧
      commandCandidates svc now route.room (strippedMsg svc msg0) =
        l1 ++ sel :: l2 ∧
      (∀ x ∈ l1, candLen x < candLen sel) ∧
      (∀ x ∈ commandCandidates svc now route.room (strippedMsg svc msg0),
        candLen x ≤ candLen sel) ∧
      (svc.handleMessage now route msg0).head? =
        some (Event.commandInvoked sel.1
          (splitArgs (strDrop (strippedMsg svc msg0) (candLen sel)))) := by
  obtain ⟨x, hx, hxpos⟩ := hpos
  have hemp : (commandCandidates svc now route.room
      (strippedMsg svc msg0)).isEmpty = false := by
    rw [List.isEmpty_eq_false]
    exact List.ne_nil_of_mem hx
  rcases hp : pickLongest (commandCandidates svc now route.room
      (strippedMsg svc msg0)) with _ | sel
  · have := (pickLongest_eq_none _).mp hp x hx
    omega
  · obtain ⟨hposl, ⟨l1, l2, hdec, hl1⟩, hmax⟩ := pickLongest_spec _ sel hp
    have hinner := inner_eq_some svc now route msg0 _ hflag
      (commandStage_some_sel svc now route.room (strippedMsg svc msg0) sel
        hemp hp)
    refine ⟨sel, l1, l2, rfl, hdec, hl1, hmax, ?_⟩
    rw [handleMessage_eq, hinner]
    simp

/-- C5 witness: two commands with matched substrings of lengths 4 and 7 on a
direct message: the length-7 handler (registration index 1) is invoked and
is selected over the length-4 one. -/
theorem c5_witness :
    ∃ sel l1 l2,
      pickLongest (commandCandidates svcC5w 0 none (strippedMsg svcC5w "abcdefg go")) =
        some sel ∧
      commandCandidates svcC5w 0 none (strippedMsg svcC5w "abcdefg go") =
        l1 ++ sel :: l2 ∧
      (∀ x ∈ l1, candLen x < candLen sel) ∧
      (∀ x ∈ commandCandidates svcC5w 0 none (strippedMsg svcC5w "abcdefg go"),
        candLen x ≤ candLen sel) ∧
      (svcC5w.handleMessage 0 dmRoute "abcdefg go").head? =
        some (Event.commandInvoked sel.1
          (splitArgs (strDrop (strippedMsg svcC5w "abcdefg go") (candLen sel)))) := by
  have hc : commandCandidates svcC5w 0 dmRoute.room (strippedMsg svcC5w "abcdefg go") =
      [(0, ⟨0, "abcd"⟩, ⟨litTrigger "abcd", false, okCmdFunc⟩),
        (1, ⟨0, "abcdefg"⟩, ⟨litTrigger "abcdefg", false, okCmdFunc⟩)] := rfl
  exact c5_longest_command_wins svcC5w 0 dmRoute "abcdefg go" (by decide)
    ⟨(1, ⟨0, "abcdefg"⟩, ⟨litTrigger "abcdefg", false, okCmdFunc⟩),
      by rw [hc]; exact List.mem_cons_of_mem _ (List.mem_cons_self _ _),
      by decide⟩

/-- C2 amended: listener matching and listener handler invocation operate on
the address-stripped text (the value the local variable `message` holds
after the prompt loop), not on the original unstripped text: every listener
invocation in the trace carries the stripped text, and a listener whose
trigger fails on the stripped text is never invoked, whatever its trigger
says about the original. -/
theorem c2_listeners_use_stripped (svc : IntentService) (now : Int)
    (route : Route) (msg0 : String) :
    (∀ i s r, Event.listenerInvoked i s r ∈ svc.handleMessage now route msg0 →
      s = strippedMsg svc msg0) ∧
    (∀ i l, svc.listeners.get? i = some l →
      l.trigger (strippedMsg svc msg0) = none →
      ∀ s r, Event.listenerInvoked i s r ∉ svc.handleMessage now route msg0) := by
  constructor
  · intro i s r h
    rcases mem_handleMessage_cases svc now route msg0 _ h with hin | heq
    · exact (inner_listenerInvoked svc now route msg0 i s r hin).1
    · exact absurd heq (by simp)
  · intro i l hget htrig s r h
    rcases mem_handleMessage_cases svc now route msg0 _ h with hin | heq
    · obtain ⟨-, m, l', hmem⟩ := inner_listenerInvoked svc now route msg0 i s r hin
      obtain ⟨hget', htrig'⟩ := (mem_listenerCandidates svc _ i m l').mp hmem
      obtain rfl : l = l' := by
        rw [hget] at hget'
        exact Option.some.inj hget'
      rw [htrig] at htrig'
      exact absurd htrig' (by simp)
    · exact absurd heq (by simp)

/-- C2 counterexample: with prompt "bot", message "bot: hi" and a listener
registered first whose trigger matches exactly the original text
"bot: hi", the trace shows the catch-all listener receiving the stripped
text "hi", and the original-matching listener never runs: listeners operate
on the stripped text, not on the original as claimed. -/
theorem c2_counterexample :
    svcC2.handleMessage 0 roomRoute "bot: hi" =
      [Event.listenerInvoked 1 "hi" (some true)] ∧
    ("hi" : String) ≠ "bot: hi" ∧
    svcC2.listeners.get? 0 = some ⟨litTrigger "bot: hi", constListener true⟩ ∧
    litTrigger "bot: hi" "bot: hi" = some ⟨0, "bot: hi"⟩ := by
  refine ⟨by decide, by decide, rfl, by decide⟩

/-- C2 witness: instantiation of the amended claim on svcC2: the invoked
listener received exactly the stripped text, and listener 0 — whose trigger
fails on the stripped text though it matches the original — was not invoked
with the original text. -/
theorem c2_witness :
    ("hi" : String) = strippedMsg svcC2 "bot: hi" ∧
    Event.listenerInvoked 0 "bot: hi" (some true) ∉
      svcC2.handleMessage 0 roomRoute "bot: hi" := by
  have h := c2_listeners_use_stripped svcC2 0 roomRoute "bot: hi"
  constructor
  · exact h.1 1 "hi" (some true) (by decide)
  · exact h.2 0 ⟨litTrigger "bot: hi", constListener true⟩ rfl (by decide)
      "bot: hi" (some true)

/-- C6: a registered command is a matching candidate iff its trigger matches
the (address-stripped) text at offset 0 and it is core or the conversation
is not currently squelched; a non-core command is never invoked while the
conversation is squelched; and with a core and a non-core command carrying
identical triggers under squelch, the core command's handler is the one
invoked. -/
theorem c6_candidate_rule :
    (∀ (svc : IntentService) (now : Int) (room : Option String) (msg : String)
        (i : Nat) (m : RegexMatch) (c : Command),
      ((i, m, c) ∈ commandCandidates svc now room msg) ↔
        svc.commands.get? i = some c ∧ c.trigger msg = some m ∧ m.index = 0 ∧
          (c.core = true ∨ svc.squelched now room = false)) ∧
    (∀ (svc : IntentService) (now : Int) (route : Route) (msg0 : String)
        (i : Nat) (c : Command), svc.squelched now route.room = true →
      svc.commands.get? i = some c → c.core = false →
      ∀ args, Event.commandInvoked i args ∉ svc.handleMessage now route msg0) ∧
    (∀ (svc : IntentService) (now : Int) (route : Route) (msg0 : String)
        (c0 c1 : Command) (s : String),
      svc.commands = [c0, c1] → c1.trigger = c0.trigger →
      c0.core = true → c1.core = false →
      svc.squelched now route.room = true →
      isCommandFlag svc route msg0 = true →
      c0.trigger (strippedMsg svc msg0) = some ⟨0, s⟩ → s ≠ "" →
      (svc.handleMessage now route msg0).head? =
        some (Event.commandInvoked 0
          (splitArgs (strDrop (strippedMsg svc msg0) s.length)))) := by
  refine ⟨?_, ?_, ?_⟩
  · intro svc now room msg i m c
    rw [mem_commandCandidates]
    simp [Bool.or_eq_true, Bool.not_eq_true']
  · intro svc now route msg0 i c hsq hget hcore args h
    obtain ⟨m, c', hmem⟩ := handleMessage_commandInvoked svc now route msg0 i args h
    obtain ⟨hget', htrig', hidx', hcond'⟩ :=
      (mem_commandCandidates svc now route.room (strippedMsg svc msg0) i m c').mp hmem
    obtain rfl : c = c' := by
      rw [hget] at hget'
      exact Option.some.inj hget'
    rw [hsq, hcore] at hcond'
    simp at hcond'
  · intro svc now route msg0 c0 c1 s hcmds htrig hcore0 hcore1 hsq hflag htr0 hs
    have hpos : 0 < s.length := by
      rcases s with ⟨data⟩
      cases data with
      | nil => exact absurd rfl hs
      | cons a as => simp [String.length]
    have hcands : commandCandidates svc now route.room (strippedMsg svc msg0) =
        [(0, ⟨0, s⟩, c0)] := by
      rw [commandCandidates, hcmds, hsq]
      simp [commandCandidatesFrom, htr0, htrig, hcore0, hcore1]
    have hemp : (commandCandidates svc now route.room
        (strippedMsg svc msg0)).isEmpty = false := by
      rw [hcands]
      rfl
    have hpick : pickLongest (commandCandidates svc now route.room
        (strippedMsg svc msg0)) = some (0, ⟨0, s⟩, c0) := by
      rw [hcands]
      simp [pickLongest, pickLongestAux, pickStep, candLen, hpos]
    have hinner := inner_eq_some svc now route msg0 _ hflag
      (commandStage_some_sel svc now route.room (strippedMsg svc msg0)
        (0, ⟨0, s⟩, c0) hemp hpick)
    rw [handleMessage_eq, hinner]
    simp [candLen]

/-- C6 witness: concrete core and non-core commands with the identical
trigger "go" in squelched room "r": the candidate-rule instance holds for
the core command, the core handler is invoked on the stripped remainder,
and the non-core command is not invoked. -/
theorem c6_witness :
    (svcC6w.handleMessage 0 roomRoute "bot: go now").head? =
      some (Event.commandInvoked 0
        (splitArgs (strDrop (strippedMsg svcC6w "bot: go now") "go".length))) ∧
    ((0, (⟨0, "go"⟩ : RegexMatch), cmdCore) ∈
      commandCandidates svcC6w 0 (some "r") (strippedMsg svcC6w "bot: go now")) ∧
    Event.commandInvoked 1 ["now"] ∉ svcC6w.handleMessage 0 roomRoute "bot: go now" := by
  have h := c6_candidate_rule
  refine ⟨h.2.2 svcC6w 0 roomRoute "bot: go now" cmdCore cmdNonCore "go" rfl rfl
    rfl rfl (by decide) (by decide) (by decide) (by decide), ?_, ?_⟩
  · exact (h.1 svcC6w 0 (some "r") (strippedMsg svcC6w "bot: go now") 0
      ⟨0, "go"⟩ cmdCore).mpr ⟨rfl, by decide, rfl, Or.inl rfl⟩
  · exact h.2.1 svcC6w 0 roomRoute "bot: go now" 1 cmdNonCore (by decide) rfl rfl
      ["now"]

/-- C1 counterexample: a message flagged as a command (prompt "bot"
matched) with no command candidate where a listener handled the message
(returned truthy): the dispatch ends without any fallback reply,
contradicting "exactly one fallback reply regardless of whether a listener
later ran". -/
theorem c1_counterexample :
    isCommandFlag svcC1 roomRoute "bot: hi" = true ∧
    (commandCandidates svcC1 0 (some "r") (strippedMsg svcC1 "bot: hi")).isEmpty = true ∧
    (svcC1.handleMessage 0 roomRoute "bot: hi").filter isFallbackReply = [] := by
  decide

/-- C1 amended: for a message flagged as a command with no command
candidate, exactly one fallback reply is sent unless an (unsquelched)
listener returned truthy or threw: under squelch it is the silenced reply on
the forced-direct channel; otherwise, if the listener loop fell through, the
not-understood reply on the normal route, and nothing when a listener
handled the message or threw.  Messages not flagged as commands never
produce a fallback reply. -/
theorem c1_fallback_rule (svc : IntentService) (now : Int) (route : Route)
    (msg0 : String) :
    (svc.handleMessage now route msg0).filter isFallbackReply =
      (if isCommandFlag svc route msg0 &&
          (commandCandidates svc now route.room (strippedMsg svc msg0)).isEmpty then
        (if svc.squelched now route.room then
          [Event.reply Channel.forcedDirect "?command_but_silenced"]
        else if (listenerStage svc now route.room (strippedMsg svc msg0)).2 =
            ListenOutcome.fellThrough then
          [Event.reply Channel.normal "?command_not_found"]
        else [])
      else []) := by
  have hgen : (if (handleMessageInner svc now route msg0).2.isSome then
      [Event.reply Channel.normal "?generic_error"] else ([] : List Event)).filter
      isFallbackReply = [] := by
    cases hb : (handleMessageInner svc now route msg0).2.isSome <;> decide
  rw [handleMessage_eq, List.filter_append, hgen, List.append_nil]
  by_cases hflag : isCommandFlag svc route msg0 = true
  · by_cases hemp : (commandCandidates svc now route.room
        (strippedMsg svc msg0)).isEmpty = true
    · rw [inner_eq_listenerPath_of_none svc now route msg0
        ((commandStage_none svc now route.room (strippedMsg svc msg0)).mpr hemp),
        listenerPath_trace, List.filter_append, listenerStage_filter_fallback,
        List.nil_append, hflag, hemp]
      by_cases hsq : svc.squelched now route.room = true
      · rw [listenerStage_squelched svc now route.room (strippedMsg svc msg0) hsq,
          hsq]
        simp [fallbackStage, hflag, hsq, isFallbackReply]
      · have hsq' : svc.squelched now route.room = false := by simpa using hsq
        rw [hsq']
        rcases hoc : (listenerStage svc now route.room (strippedMsg svc msg0)).2
        · simp [fallbackStage, hsq']
        · simp [fallbackStage, hflag, hsq', isFallbackReply]
        · simp [fallbackStage, hsq']
    · have hemp' : (commandCandidates svc now route.room
          (strippedMsg svc msg0)).isEmpty = false := by simpa using hemp
      rw [hflag, hemp']
      rcases hp : pickLongest (commandCandidates svc now route.room
          (strippedMsg svc msg0)) with _ | sel
      · rw [inner_eq_some svc now route msg0 _ hflag
          (commandStage_some_badFunc svc now route.room (strippedMsg svc msg0)
            hemp' hp)]
        simp
      · rw [inner_eq_some svc now route msg0 _ hflag
          (commandStage_some_sel svc now route.room (strippedMsg svc msg0) sel
            hemp' hp)]
        simp [isFallbackReply]
  · have hflag' : isCommandFlag svc route msg0 = false := by simpa using hflag
    rw [inner_eq_listenerPath_of_flag_false svc now route msg0 hflag',
      listenerPath_trace, List.filter_append, listenerStage_filter_fallback,
      List.nil_append, hflag']
    rcases hoc : (listenerStage svc now route.room (strippedMsg svc msg0)).2 <;>
      simp [fallbackStage, hflag']
